import Mathlib

/-!
Shallow embedding of the To-Do-List-School-Planner task engine.

The repository ships two React variants of the task store:

* `Browser` — `src/App.js` (localStorage variant): a DOM-driven store with
  `uid`, `validate`, `renderTasks`, `addOrSaveTask`, `deleteTask`,
  `updateStatus` over a mutable `tasks` array and an `editingId` cell.
* `ReactApi` — the second `src/App.js` component plus `src/AddTaskForm.js`:
  `handleAddTask` (id from `Date.now()`, append), `validateForm` and
  `handleSubmit` (title/category/past-due checks).

JavaScript strings are embedded as Lean `String`; `toLowerCase`, `trim` and
`includes` are embedded per-character on `String.data`. `new Date(s)`
valuations (used only for comparisons) are abstracted by a parameter
`dv : String → Int`; current time and generated ids are explicit arguments,
since the JS reads them from the environment (`Date.now()`, `Math.random()`,
`new Date().toISOString()`).
-/

namespace Planner

/-- Embeds JS `String.prototype.toLowerCase` (per-character lowering). -/
def lower (s : String) : String :=
  ⟨s.data.map Char.toLower⟩

/-- JS whitespace test for the characters `trim` strips (ASCII subset). -/
def isWs (c : Char) : Bool :=
  c == ' ' || c == '\t' || c == '\n' || c == '\r'

/-- Embeds JS `String.prototype.trim`: drop leading and trailing whitespace. -/
def jsTrim (s : String) : String :=
  ⟨((s.data.dropWhile isWs).reverse.dropWhile isWs).reverse⟩

/-- `startsWith needle hay`: `needle` is a prefix of `hay` (char lists). -/
def startsWith : List Char → List Char → Bool
  | [], _ => true
  | _ :: _, [] => false
  | a :: as, b :: bs => a == b && startsWith as bs

/-- `includesList needle hay`: `needle` occurs contiguously in `hay`. -/
def includesList (needle : List Char) : List Char → Bool
  | [] => startsWith needle []
  | c :: rest => startsWith needle (c :: rest) || includesList needle rest

/-- Embeds JS `hay.includes(needle)` (substring containment). -/
def strIncludes (hay needle : String) : Bool :=
  includesList needle.data hay.data

end Planner

namespace Browser

open Planner

/-- One task record of the localStorage variant (`src/App.js`): fields are the
exact object literal built in `addOrSaveTask`. -/
structure Task where
  id : String
  title : String
  description : String
  due : String
  status : String
  createdAt : String
  updatedAt : String
deriving DecidableEq, Repr

/-- The mutable cells the `useEffect` closure owns: the `tasks` array, the
`editingId` cell and the text of `errorDiv`. -/
structure AppState where
  tasks : List Task
  editingId : Option String
  errorMsg : String
deriving DecidableEq, Repr

/-- Embeds `uid = () => Math.random().toString(36).substring(2, 9)`: the id is
the first seven base-36 fraction digits of the random draw, here represented
by the draw's digit stream. The allocator keeps no state. -/
def uid (randFracDigits : List (Fin 36)) : List (Fin 36) :=
  randFracDigits.take 7

/-- Embeds `validate(title, due)` from `src/App.js`: blank title and missing
(empty) due-date field are the only two failure cases, in this order. -/
def validate (title due : String) : Option String :=
  if jsTrim title = "" then some "Title is required!"
  else if due = "" then some "Please select a due date."
  else none

/-- The ascending-keep predicate of the JS sort comparator in `renderTasks`:
`sortBy === "due"` compares due dates ascending, otherwise it compares
`createdAt` descending (newest first). -/
def sortLe (sortBy : String) (dv : String → Int) (a b : Task) : Bool :=
  if sortBy = "due" then decide (dv a.due ≤ dv b.due)
  else decide (dv b.createdAt ≤ dv a.createdAt)

/-- JS `Array.prototype.sort` with a consistent comparator is the stable sort
by the comparator; insertion sort realises it. -/
def jsSort (le : Task → Task → Bool) (l : List Task) : List Task :=
  l.insertionSort (fun a b => le a b = true)

/-- The status/search filter pipeline of `renderTasks`, before sorting:
status filter first (skipped for "all"), then the case-insensitive title
search (skipped when the lowercased query is empty). -/
def filteredView (tasks : List Task) (searchRaw statusFilter : String) :
    List Task :=
  let search := lower searchRaw
  let f1 := if statusFilter ≠ "all" then
      tasks.filter (fun t => t.status == statusFilter)
    else tasks
  if search ≠ "" then
    f1.filter (fun t => strIncludes (lower t.title) search)
  else f1

/-- Embeds the list `renderTasks` displays: a copy of `tasks`
(`[...tasks]`) filtered by status and search and then sorted; the stored
`tasks` array itself is never written. -/
def renderTasks (tasks : List Task) (searchRaw statusFilter sortBy : String)
    (dv : String → Int) : List Task :=
  jsSort (sortLe sortBy dv) (filteredView tasks searchRaw statusFilter)

/-- `renderTasks` as a state transformer: it returns the displayed list and
the store afterwards. The JS body only reads `tasks` (into the copy
`filtered`), so the store component is the input store. -/
def renderTasksRun (st : AppState) (searchRaw statusFilter sortBy : String)
    (dv : String → Int) : List Task × AppState :=
  (renderTasks st.tasks searchRaw statusFilter sortBy dv, st)

/-- Embeds `addOrSaveTask`: validate; on error set `errorDiv` and return; in
edit mode map the edited fields over the matching id; otherwise `unshift` the
new task (status "pending") onto the front. `newId` stands for `uid()`,
`now` for `nowISO()`. -/
def addOrSaveTask (st : AppState) (title description due newId now : String) :
    AppState :=
  match validate title due with
  | some err => { st with errorMsg := err }
  | none =>
    match st.editingId with
    | some eid =>
      { st with
        tasks := st.tasks.map (fun t =>
          if t.id = eid then
            { t with title := title, description := description, due := due,
                     updatedAt := now }
          else t)
        editingId := none
        errorMsg := "" }
    | none =>
      { st with
        tasks := { id := newId, title := title, description := description,
                   due := due, status := "pending", createdAt := now,
                   updatedAt := now } :: st.tasks
        errorMsg := "" }

/-- Embeds `deleteTask(id)` after a confirmed dialog: keep the tasks whose id
differs. -/
def deleteTask (tasks : List Task) (id : String) : List Task :=
  tasks.filter (fun t => t.id ≠ id)

/-- Embeds `updateStatus(id, status)`: map over the list, replacing status and
`updatedAt` on the matching id. -/
def updateStatus (tasks : List Task) (id status now : String) : List Task :=
  tasks.map (fun t =>
    if t.id = id then { t with status := status, updatedAt := now } else t)

/-- The three status buttons rendered per task card; they are the only call
sites of `updateStatus`. -/
inductive UiStatus
  | pending
  | inProgress
  | completed
deriving DecidableEq, Repr

/-- The literal each button passes to `updateStatus`. -/
def UiStatus.str : UiStatus → String
  | .pending => "pending"
  | .inProgress => "in-progress"
  | .completed => "completed"

/-- The store operations reachable from the UI of the localStorage variant. -/
inductive Op
  | addOrSave (title description due newId now : String)
  | statusClick (id : String) (b : UiStatus) (now : String)
  | del (id : String) (confirmed : Bool)
  | startEdit (id : String)
deriving Repr

/-- Applies one UI operation to the state, as wired in the event listeners:
status clicks come from the three buttons, delete runs only when the confirm
dialog is accepted, `startEdit` only sets `editingId`. -/
def applyOp (st : AppState) : Op → AppState
  | .addOrSave title description due newId now =>
      addOrSaveTask st title description due newId now
  | .statusClick id b now =>
      { st with tasks := updateStatus st.tasks id b.str now }
  | .del id confirmed =>
      if confirmed then { st with tasks := deleteTask st.tasks id } else st
  | .startEdit id => { st with editingId := some id }

/-- The status enumeration invariant of the stored collection. -/
def validStatus (s : String) : Prop :=
  s = "pending" ∨ s = "in-progress" ∨ s = "completed"

instance : DecidablePred validStatus := fun s => by
  unfold validStatus; infer_instance

/-- Every stored task carries an enumerated status. -/
def TasksValid (l : List Task) : Prop :=
  ∀ t ∈ l, validStatus t.status

instance : DecidablePred TasksValid := fun l => by
  unfold TasksValid; infer_instance

end Browser

namespace ReactApi

open Planner

/-- The payload `handleSubmit` builds from the form and hands to `onAddTask`
(`src/AddTaskForm.js`): `due_date` is `null` when the field is empty. -/
structure TaskData where
  title : String
  notes : String
  due_date : Option String
  subject : String
  priority : String
deriving DecidableEq, Repr

/-- One task of the React-state variant (second `src/App.js`): the object
`handleAddTask` builds, with `id` from `Date.now()` (a millisecond count). -/
structure Task where
  id : Nat
  title : String
  notes : String
  due_date : Option String
  subject : String
  priority : String
  completed : Bool
  created_at : String
deriving DecidableEq, Repr

/-- The form state of `AddTaskForm` (initially `priority = "Medium"`). -/
structure FormData where
  title : String
  description : String
  dueDate : String
  category : String
  priority : String
deriving DecidableEq, Repr

/-- The option list of the priority select in `AddTaskForm`; it is the only
source of values for `formData.priority` besides the initial "Medium". -/
def priorities : List String := ["High", "Medium", "Low"]

/-- Embeds `validateForm` from `src/AddTaskForm.js` as the error list it
builds: blank title, missing category, and a supplied due date earlier than
today's midnight (`todayStart`, via the date valuation `dv`) each add an
error; the form is valid exactly when the list is empty. -/
def validateForm (title category dueDate : String) (todayStart : Int)
    (dv : String → Int) : List (String × String) :=
  (if jsTrim title = "" then [("title", "Title is required")] else [])
    ++ (if category = "" then [("category", "Category is required")] else [])
    ++ (if dueDate ≠ "" ∧ dv dueDate < todayStart then
          [("dueDate", "Due date cannot be in the past")]
        else [])

/-- Embeds the `taskData` object literal of `handleSubmit`. -/
def mkTaskData (fd : FormData) : TaskData :=
  { title := fd.title, notes := fd.description
    due_date := if fd.dueDate = "" then none else some fd.dueDate
    subject := fd.category, priority := fd.priority }

/-- Embeds `handleAddTask` from the second `src/App.js`: the new task gets
`id = Date.now()` (`nowMs`), `completed = false`, `created_at` now, and is
appended at the end (`[...prevTasks, newTask]`). -/
def handleAddTask (prev : List Task) (td : TaskData) (nowMs : Nat)
    (nowIso : String) : List Task :=
  prev ++ [{ id := nowMs, title := td.title, notes := td.notes,
             due_date := td.due_date, subject := td.subject,
             priority := td.priority, completed := false,
             created_at := nowIso }]

/-- Embeds `handleSubmit`: if `validateForm` reports errors, return without
calling `onAddTask`; otherwise add the task built from the form. -/
def handleSubmit (l : List Task) (fd : FormData) (todayStart : Int)
    (dv : String → Int) (nowMs : Nat) (nowIso : String) : List Task :=
  if validateForm fd.title fd.category fd.dueDate todayStart dv ≠ [] then l
  else handleAddTask l (mkTaskData fd) nowMs nowIso

/-- A sequence of submit calls, each with its task data, `Date.now()` value
and ISO timestamp, folded over the store. -/
def createMany (l : List Task) : List (TaskData × Nat × String) → List Task
  | [] => l
  | (td, t, iso) :: rest => createMany (handleAddTask l td t iso) rest

/-- The priority enumeration of the form select. -/
def validPriority (p : String) : Prop :=
  p = "High" ∨ p = "Medium" ∨ p = "Low"

instance : DecidablePred validPriority := fun p => by
  unfold validPriority; infer_instance

/-- Every stored task carries an enumerated priority. -/
def PrioValid (l : List Task) : Prop :=
  ∀ t ∈ l, validPriority t.priority

instance : DecidablePred PrioValid := fun l => by
  unfold PrioValid; infer_instance

end ReactApi

/-! Concrete records used to exercise the embedding. -/

/-- A task whose title contains "math" (case-insensitively). -/
def taskMath : Browser.Task :=
  { id := "t1", title := "Math Homework", description := "algebra drills",
    due := "2025-10-30T10:00", status := "pending",
    createdAt := "2025-01-01T00:00", updatedAt := "2025-01-01T00:00" }

/-- A task whose description contains "math" but whose title does not. -/
def taskSci : Browser.Task :=
  { id := "t2", title := "Science Lab", description := "math exercises",
    due := "2025-11-02T10:00", status := "pending",
    createdAt := "2025-01-02T00:00", updatedAt := "2025-01-02T00:00" }

/-- A concrete submit payload for the React-state variant. -/
def td0 : ReactApi.TaskData :=
  { title := "Essay", notes := "draft", due_date := none,
    subject := "English", priority := "Medium" }

/-- A form state that passes `validateForm`. -/
def fd0 : ReactApi.FormData :=
  { title := "Essay", description := "draft", dueDate := "",
    category := "English", priority := "Medium" }

/-- A form state with a blank title, which `validateForm` rejects. -/
def fdBad : ReactApi.FormData :=
  { title := "   ", description := "draft", dueDate := "",
    category := "English", priority := "Medium" }

/-- A base-36 digit stream for `Math.random()`. -/
def ds1 : List (Fin 36) := [0, 1, 2, 3, 4, 5, 6, 7]

/-- A different stream agreeing with `ds1` on the first seven digits. -/
def ds2 : List (Fin 36) := [0, 1, 2, 3, 4, 5, 6, 8]

/-! Helper lemmas shared by the claim theorems. -/

/-- `jsSort` only permutes its input. -/
theorem jsSort_perm (le : Browser.Task → Browser.Task → Bool)
    (l : List Browser.Task) : (Browser.jsSort le l).Perm l :=
  List.perm_insertionSort _ l

/-- Mapping a conditional rewrite over a list where the condition never holds
is the identity. -/
theorem map_ite_id_of_no_match {α : Type} (l : List α) (p : α → Prop)
    [DecidablePred p] (f : α → α) (h : ∀ a ∈ l, ¬ p a) :
    l.map (fun a => if p a then f a else a) = l := by
  induction l with
  | nil => rfl
  | cons a l ih =>
    simp only [List.map_cons]
    rw [if_neg (h a (List.mem_cons_self a l))]
    rw [ih (fun b hb => h b (List.mem_cons_of_mem a hb))]

/-- The ids of a batch of creates are the prior ids followed by the
`Date.now()` values of the calls, in order. -/
theorem createMany_map_id (calls : List (ReactApi.TaskData × Nat × String)) :
    ∀ l : List ReactApi.Task,
      (ReactApi.createMany l calls).map ReactApi.Task.id
        = l.map ReactApi.Task.id ++ calls.map (fun c => c.2.1) := by
  induction calls with
  | nil => intro l; simp [ReactApi.createMany]
  | cons c rest ih =>
    intro l
    obtain ⟨td, t, iso⟩ := c
    simp [ReactApi.createMany, ReactApi.handleAddTask, ih]

/-! Claim theorems. -/

/-- Claim C1 counterexample: `search("math")` drops a task whose description
(but not title) contains "math", so search does not match against the
description as the claim states. -/
theorem c1_counterexample :
    Browser.renderTasks [taskSci] "math" "all" "createdAt" (fun _ => 0) = []
      ∧ Planner.strIncludes (Planner.lower taskSci.description)
          (Planner.lower "math") = true := by
  decide

/-- Claim C1 (amended): for every task list and non-empty query, the search
view contains exactly the tasks whose TITLE contains the query
case-insensitively; the description is never consulted. -/
theorem c1_search_matches_title_only (ts : List Browser.Task)
    (q sb : String) (dv : String → Int) (t : Browser.Task)
    (h : Planner.lower q ≠ "") :
    t ∈ Browser.renderTasks ts q "all" sb dv ↔
      t ∈ ts ∧ Planner.strIncludes (Planner.lower t.title)
        (Planner.lower q) = true := by
  unfold Browser.renderTasks
  rw [(jsSort_perm _ _).mem_iff]
  unfold Browser.filteredView
  simp only [ne_eq, not_true_eq_false, if_false, if_neg (not_not.mpr rfl)]
  rw [if_pos h]
  simp [List.mem_filter]

/-- Witness for the amended C1 at a concrete store and query. -/
theorem c1_search_matches_title_only_witness :
    Planner.lower "MATH" ≠ "" ∧
      taskMath ∈ Browser.renderTasks [taskMath, taskSci] "MATH" "all"
        "createdAt" (fun _ => 0) :=
  ⟨by decide,
    (c1_search_matches_title_only [taskMath, taskSci] "MATH" "createdAt"
      (fun _ => 0) taskMath (by decide)).mpr ⟨by decide, by decide⟩⟩

/-- Claim C2 counterexample: with a non-empty store, the empty query returns
the whole store, not the empty sequence. -/
theorem c2_counterexample :
    Browser.renderTasks [taskSci] "" "all" "createdAt" (fun _ => 0)
        = [taskSci]
      ∧ ([taskSci] : List Browser.Task) ≠ [] := by
  decide

/-- Claim C2 (amended): the empty query disables the search filter, so the
view is a permutation (reordering only) of the entire stored list. -/
theorem c2_empty_query_returns_all (ts : List Browser.Task) (sb : String)
    (dv : String → Int) :
    (Browser.renderTasks ts "" "all" sb dv).Perm ts := by
  unfold Browser.renderTasks Browser.filteredView
  simp only [ne_eq, not_true_eq_false, if_false, if_neg (not_not.mpr rfl)]
  have h : Planner.lower "" = "" := rfl
  rw [if_neg (by simp [h])]
  exact jsSort_perm _ _

/-- Claim C10: producing the sorted presentation view never mutates the
store — the state after rendering is the input state — and the displayed
list is merely a permutation of the filtered stored tasks. -/
theorem c10_render_preserves_store (st : Browser.AppState)
    (searchRaw statusFilter sortBy : String) (dv : String → Int) :
    (Browser.renderTasksRun st searchRaw statusFilter sortBy dv).2 = st ∧
    (Browser.renderTasksRun st searchRaw statusFilter sortBy dv).2.tasks
        = st.tasks ∧
    ((Browser.renderTasksRun st searchRaw statusFilter sortBy dv).1).Perm
      (Browser.filteredView st.tasks searchRaw statusFilter) :=
  ⟨rfl, rfl, jsSort_perm _ _⟩

/-- Claim C3 counterexample: creating a task with one task already stored
yields the new task FIRST (`unshift`), not the prior tasks followed by the
new one as the claim states. -/
theorem c3_counterexample :
    (Browser.addOrSaveTask ⟨[taskMath], none, ""⟩ "Science Lab"
        "math exercises" "2025-11-02T10:00" "t2" "2025-01-02T00:00").tasks
      = [taskSci, taskMath]
      ∧ ([taskSci, taskMath] : List Browser.Task) ≠ [taskMath, taskSci] := by
  decide

/-- Claim C3 (amended): a valid create in add mode PREPENDS the new task, so
the list afterwards is the new task followed by the previously stored tasks
in their original order. -/
theorem c3_create_prepends (st : Browser.AppState)
    (title description due newId now : String)
    (he : st.editingId = none) (hv : Browser.validate title due = none) :
    (Browser.addOrSaveTask st title description due newId now).tasks
      = { id := newId, title := title, description := description, due := due,
          status := "pending", createdAt := now,
          updatedAt := now } :: st.tasks := by
  unfold Browser.addOrSaveTask
  rw [hv, he]

/-- Witness for the amended C3 at a concrete store. -/
theorem c3_create_prepends_witness :
    (⟨[taskMath], none, ""⟩ : Browser.AppState).editingId = none ∧
    Browser.validate "Science Lab" "2025-11-02T10:00" = none ∧
    (Browser.addOrSaveTask ⟨[taskMath], none, ""⟩ "Science Lab"
        "math exercises" "2025-11-02T10:00" "t2" "2025-01-02T00:00").tasks
      = taskSci :: [taskMath] :=
  ⟨rfl, by decide,
    c3_create_prepends ⟨[taskMath], none, ""⟩ "Science Lab" "math exercises"
      "2025-11-02T10:00" "t2" "2025-01-02T00:00" rfl (by decide)⟩

/-- Claim C4 counterexample: a create with a non-blank title, no due date
and no category fails in both variants — the browser `validate` demands a
due date and the form `validateForm` demands a category — contradicting the
claim that only a blank title or malformed due date can fail. -/
theorem c4_counterexample :
    Browser.validate "Homework" "" = some "Please select a due date."
      ∧ (Browser.addOrSaveTask ⟨[], none, ""⟩ "Homework" "essay" "" "t9"
          "2025-01-01T00:00").tasks = []
      ∧ ReactApi.validateForm "Homework" "" "" 0 (fun _ => 0) ≠ [] := by
  decide

/-- Claim C4 (amended): browser-variant creation fails exactly when the
title is blank OR the due-date field is empty; with a non-blank title and a
due date it succeeds and stores the task, and on failure the store is
untouched and an error message is displayed. (The form variant additionally
requires a category and rejects past due dates.) -/
theorem c4_validation_characterised (st : Browser.AppState)
    (title description due newId now : String) (he : st.editingId = none) :
    (Browser.validate title due = none ↔
        (Planner.jsTrim title ≠ "" ∧ due ≠ "")) ∧
    (Browser.validate title due = none →
      (Browser.addOrSaveTask st title description due newId now).tasks
        = { id := newId, title := title, description := description,
            due := due, status := "pending", createdAt := now,
            updatedAt := now } :: st.tasks) ∧
    (Browser.validate title due ≠ none →
      (Browser.addOrSaveTask st title description due newId now).tasks
          = st.tasks ∧
      (Browser.addOrSaveTask st title description due newId now).errorMsg
          ≠ "") := by
  refine ⟨?_, ?_, ?_⟩
  · unfold Browser.validate
    by_cases h1 : Planner.jsTrim title = "" <;>
      by_cases h2 : due = "" <;> simp [h1, h2]
  · intro hv
    unfold Browser.addOrSaveTask
    rw [hv, he]
  · intro hv
    unfold Browser.addOrSaveTask
    unfold Browser.validate at hv ⊢
    by_cases h1 : Planner.jsTrim title = ""
    · simp [h1]
    · by_cases h2 : due = ""
      · simp [h1, h2]
      · simp [h1, h2] at hv

/-- Witness for the amended C4 at a concrete store and inputs. -/
theorem c4_validation_characterised_witness :
    (⟨[taskMath], none, ""⟩ : Browser.AppState).editingId = none ∧
    (Browser.validate "Homework" "" = none ↔
        (Planner.jsTrim "Homework" ≠ "" ∧ ("" : String) ≠ "")) :=
  ⟨rfl,
    (c4_validation_characterised ⟨[taskMath], none, ""⟩ "Homework" "essay"
      "" "t9" "2025-01-01T00:00" rfl).1⟩

/-- Claim C5: an input that fails validation leaves the stored collection
exactly as it was, in both variants — the browser `addOrSaveTask` returns
before touching `tasks`, and the form `handleSubmit` returns before calling
`onAddTask`. -/
theorem c5_failed_validation_is_noop (st : Browser.AppState)
    (title description due newId now : String)
    (l2 : List ReactApi.Task) (fd : ReactApi.FormData) (todayStart : Int)
    (dv : String → Int) (nowMs : Nat) (iso : String)
    (h1 : Browser.validate title due ≠ none)
    (h2 : ReactApi.validateForm fd.title fd.category fd.dueDate todayStart dv
        ≠ []) :
    (Browser.addOrSaveTask st title description due newId now).tasks
        = st.tasks ∧
    ReactApi.handleSubmit l2 fd todayStart dv nowMs iso = l2 := by
  constructor
  · unfold Browser.addOrSaveTask
    cases hval : Browser.validate title due with
    | none => exact absurd hval h1
    | some err => rfl
  · unfold ReactApi.handleSubmit
    rw [if_pos h2]

/-- Witness for C5 at a concrete store and failing inputs. -/
theorem c5_failed_validation_is_noop_witness :
    Browser.validate "   " "2025-11-02T10:00" ≠ none ∧
    ReactApi.validateForm fdBad.title fdBad.category fdBad.dueDate 0
        (fun _ => 0) ≠ [] ∧
    ((Browser.addOrSaveTask ⟨[taskMath], none, ""⟩ "   " "d"
        "2025-11-02T10:00" "t9" "now").tasks = [taskMath] ∧
      ReactApi.handleSubmit [] fdBad 0 (fun _ => 0) 1700 "iso" = []) :=
  ⟨by decide, by decide,
    c5_failed_validation_is_noop ⟨[taskMath], none, ""⟩ "   " "d"
      "2025-11-02T10:00" "t9" "now" [] fdBad 0 (fun _ => 0) 1700 "iso"
      (by decide) (by decide)⟩

/-- Claim C6 counterexample: `updateStatus` and the edit path of
`addOrSaveTask` applied to an id that is not stored return the unchanged
list and raise no error of any kind (the error text stays empty), instead
of failing with NotFoundError as the claim states. -/
theorem c6_counterexample :
    Browser.updateStatus [taskMath] "no-such-id" "completed"
        "2025-02-01T00:00" = [taskMath]
      ∧ (Browser.addOrSaveTask ⟨[taskMath], some "no-such-id", ""⟩ "T" "D"
          "2025-03-01T09:00" "t9" "2025-02-01T00:00").tasks = [taskMath]
      ∧ (Browser.addOrSaveTask ⟨[taskMath], some "no-such-id", ""⟩ "T" "D"
          "2025-03-01T09:00" "t9" "2025-02-01T00:00").errorMsg = "" := by
  decide

/-- Claim C6 (amended): update and update_status on an id that is not in
the list are silent no-ops — the list is returned unchanged and no error is
signalled. -/
theorem c6_missing_id_update_is_silent_noop (tasks : List Browser.Task)
    (id status now : String) (h : ∀ t ∈ tasks, t.id ≠ id) :
    Browser.updateStatus tasks id status now = tasks ∧
    ∀ title description due newId now2,
      Browser.validate title due = none →
        (Browser.addOrSaveTask ⟨tasks, some id, ""⟩ title description due
          newId now2).tasks = tasks := by
  constructor
  · unfold Browser.updateStatus
    exact map_ite_id_of_no_match tasks (fun t => t.id = id) _ h
  · intro title description due newId now2 hv
    unfold Browser.addOrSaveTask
    rw [hv]
    exact map_ite_id_of_no_match tasks (fun t => t.id = id) _ h

/-- Witness for the amended C6 at a concrete store and missing id. -/
theorem c6_missing_id_update_is_silent_noop_witness :
    (∀ t ∈ [taskMath], t.id ≠ "zz") ∧
    Browser.updateStatus [taskMath] "zz" "completed" "now" = [taskMath] :=
  ⟨by decide,
    (c6_missing_id_update_is_silent_noop [taskMath] "zz" "completed" "now"
      (by decide)).1⟩

/-- Claim C7: when a task with id `I` is stored, `updateStatus I S` produces
a pointwise-related list: some task now has id `I`, status `S` and the new
`updatedAt`; every task whose id is `I` keeps its id, title, description,
due date and `createdAt` while its status becomes `S`; every other task is
untouched. -/
theorem c7_update_status_frame (tasks : List Browser.Task) (I S now : String)
    (hex : ∃ t ∈ tasks, t.id = I) :
    (∃ t ∈ Browser.updateStatus tasks I S now,
        t.id = I ∧ t.status = S ∧ t.updatedAt = now) ∧
    List.Forall₂ (fun t u =>
        (t.id = I → u.id = t.id ∧ u.title = t.title ∧
          u.description = t.description ∧ u.due = t.due ∧
          u.createdAt = t.createdAt ∧ u.status = S ∧ u.updatedAt = now) ∧
        (t.id ≠ I → u = t))
      tasks (Browser.updateStatus tasks I S now) := by
  constructor
  · obtain ⟨t, ht, hid⟩ := hex
    refine ⟨{ t with status := S, updatedAt := now }, ?_, hid, rfl, rfl⟩
    unfold Browser.updateStatus
    refine List.mem_map.mpr ⟨t, ht, ?_⟩
    simp only [if_pos hid]
  · clear hex
    unfold Browser.updateStatus
    induction tasks with
    | nil => exact List.Forall₂.nil
    | cons a l ih =>
      simp only [List.map_cons]
      refine List.Forall₂.cons ?_ ih
      by_cases ha : a.id = I
      · rw [if_pos ha]
        exact ⟨fun _ => ⟨rfl, rfl, rfl, rfl, rfl, rfl, rfl⟩,
          fun hne => absurd ha hne⟩
      · rw [if_neg ha]
        exact ⟨fun hy => absurd hy ha, fun _ => rfl⟩

/-- Witness for C7 at a concrete store and stored id. -/
theorem c7_update_status_frame_witness :
    (∃ t ∈ [taskMath, taskSci], t.id = "t1") ∧
    (∃ t ∈ Browser.updateStatus [taskMath, taskSci] "t1" "completed" "n2",
        t.id = "t1" ∧ t.status = "completed" ∧ t.updatedAt = "n2") :=
  ⟨by decide,
    (c7_update_status_frame [taskMath, taskSci] "t1" "completed" "n2"
      (by decide)).1⟩

/-- Claim C8 counterexample: both allocators are stateless functions of an
environment reading, so they can repeat. Two submits in the same
`Date.now()` millisecond store two tasks with the SAME id, and two distinct
`Math.random()` draws agreeing on their first seven base-36 digits collide
in `uid`. -/
theorem c8_counterexample :
    ((ReactApi.handleAddTask (ReactApi.handleAddTask [] td0 1700 "iso") td0
        1700 "iso").map ReactApi.Task.id) = [1700, 1700]
      ∧ ¬ ([1700, 1700] : List Nat).Nodup
      ∧ ds1 ≠ ds2
      ∧ Browser.uid ds1 = Browser.uid ds2 := by
  refine ⟨rfl, by decide, by decide, by decide⟩

/-- Claim C8 (amended): uniqueness holds only conditionally — a batch of
creates whose `Date.now()` readings are pairwise distinct yields pairwise
distinct stored ids (and dually, equal readings yield equal ids). -/
theorem c8_ids_distinct_iff_clock_advances
    (calls : List (ReactApi.TaskData × Nat × String))
    (h : (calls.map (fun c => c.2.1)).Nodup) :
    ((ReactApi.createMany [] calls).map ReactApi.Task.id).Nodup := by
  rw [createMany_map_id]
  simpa using h

/-- Witness for the amended C8 with three distinct clock readings. -/
theorem c8_ids_distinct_iff_clock_advances_witness :
    (([(td0, 1700, "a"), (td0, 1701, "b"), (td0, 1702, "c")].map
        (fun c : ReactApi.TaskData × Nat × String => c.2.1)).Nodup) ∧
    ((ReactApi.createMany []
        [(td0, 1700, "a"), (td0, 1701, "b"), (td0, 1702, "c")]).map
      ReactApi.Task.id).Nodup :=
  ⟨by decide,
    c8_ids_distinct_iff_clock_advances
      [(td0, 1700, "a"), (td0, 1701, "b"), (td0, 1702, "c")] (by decide)⟩

/-- Claim C9: the enumeration invariants are preserved by every reachable
operation — any UI operation of the localStorage variant keeps all stored
statuses in {pending, in-progress, completed}, and a form submit of the
React variant keeps all stored priorities in {High, Medium, Low} whenever
the form priority comes from the select options. -/
theorem c9_enum_invariants (st : Browser.AppState) (op : Browser.Op)
    (l2 : List ReactApi.Task) (fd : ReactApi.FormData) (nowMs : Nat)
    (iso : String)
    (h1 : Browser.TasksValid st.tasks) (h2 : ReactApi.PrioValid l2)
    (h3 : fd.priority ∈ ReactApi.priorities) :
    Browser.TasksValid (Browser.applyOp st op).tasks ∧
    ReactApi.PrioValid
      (ReactApi.handleAddTask l2 (ReactApi.mkTaskData fd) nowMs iso) := by
  constructor
  · cases op with
    | addOrSave title description due newId now =>
      show Browser.TasksValid
        (Browser.addOrSaveTask st title description due newId now).tasks
      unfold Browser.addOrSaveTask
      cases hval : Browser.validate title due with
      | some err => exact h1
      | none =>
        cases heid : st.editingId with
        | some eid =>
          intro u hu
          simp only at hu
          obtain ⟨t, ht, hteq⟩ := List.mem_map.mp hu
          by_cases hid : t.id = eid
          · rw [← hteq]
            simp only [if_pos hid]
            exact h1 t ht
          · rw [← hteq]
            simp only [if_neg hid]
            exact h1 t ht
        | none =>
          intro u hu
          simp only at hu
          rcases List.mem_cons.mp hu with h | h
          · rw [h]
            exact Or.inl rfl
          · exact h1 u h
    | statusClick id b now =>
      show Browser.TasksValid
        (Browser.updateStatus st.tasks id (Browser.UiStatus.str b) now)
      unfold Browser.updateStatus
      intro u hu
      obtain ⟨t, ht, hteq⟩ := List.mem_map.mp hu
      by_cases hid : t.id = id
      · rw [← hteq]
        simp only [if_pos hid]
        cases b with
        | pending => exact Or.inl rfl
        | inProgress => exact Or.inr (Or.inl rfl)
        | completed => exact Or.inr (Or.inr rfl)
      · rw [← hteq]
        simp only [if_neg hid]
        exact h1 t ht
    | del id confirmed =>
      cases confirmed with
      | false => exact h1
      | true =>
        show Browser.TasksValid (Browser.deleteTask st.tasks id)
        intro u hu
        exact h1 u (List.mem_of_mem_filter hu)
    | startEdit id => exact h1
  · intro u hu
    unfold ReactApi.handleAddTask at hu
    rcases List.mem_append.mp hu with h | h
    · exact h2 u h
    · rcases List.mem_singleton.mp h with rfl
      show ReactApi.validPriority fd.priority
      have h4 : fd.priority = "High" ∨ fd.priority = "Medium" ∨
          fd.priority = "Low" := by
        simpa [ReactApi.priorities] using h3
      exact h4

/-- Witness for C9: a valid store, a status click, and a valid form. -/
theorem c9_enum_invariants_witness :
    Browser.TasksValid [taskMath] ∧ ReactApi.PrioValid [] ∧
    fd0.priority ∈ ReactApi.priorities ∧
    Browser.TasksValid
      (Browser.applyOp ⟨[taskMath], none, ""⟩
        (Browser.Op.statusClick "t1" Browser.UiStatus.completed "n")).tasks :=
  ⟨by decide, by decide, by decide,
    (c9_enum_invariants ⟨[taskMath], none, ""⟩
      (Browser.Op.statusClick "t1" Browser.UiStatus.completed "n") [] fd0
      1700 "iso" (by decide) (by decide) (by decide)).1⟩
